import Mathlib

/-!
# Verification of the lipsync video-editor core

Shallow embedding of the lipsync repository (React/TypeScript front end for
segment-based transcript editing and lip-sync video generation), together
with proofs of the specification claims about it.

Conventions of the embedding:
* JS strings are modelled as `List Char`;
* JS numbers holding times/durations are modelled as `ℚ` (the code only
  copies and compares them, so exact rationals are faithful);
* optional / possibly-`undefined` fields are `Option`;
* functions that can throw are `Option`/`Except`-valued;
* network effects are replaced by explicit payload / response parameters:
  each embedded function is the pure computation the source performs on the
  data it fetched or is about to send.
-/

namespace Lipsync

/-- JS whitespace as matched by `\s` and trimmed by `String.prototype.trim`:
the ASCII whitespace characters plus the no-break space.  (The claims only
involve ASCII texts, so the exotic Unicode space code points are irrelevant;
this set is closed under everything the repository does.) -/
def isSpaceChar (c : Char) : Bool :=
  c == ' ' || c == '\t' || c == '\n' || c == '\r' || c == '\x0b' || c == '\x0c' || c == ' '

/-- Leading half of `String.prototype.trim`: drop leading whitespace. -/
def trimStart : List Char → List Char
  | [] => []
  | c :: cs => if isSpaceChar c then trimStart cs else c :: cs

/-- Trailing half of `String.prototype.trim`: drop trailing whitespace. -/
def trimEnd : List Char → List Char
  | [] => []
  | c :: cs =>
    match trimEnd cs with
    | [] => if isSpaceChar c then [] else [c]
    | r => c :: r

/-- `String.prototype.trim`: drop leading and trailing whitespace. -/
def trim (s : List Char) : List Char := trimEnd (trimStart s)

/-- Splitting on single whitespace characters, keeping empty tokens
(`cur` is the reversed token currently being accumulated).  The source
splits on the regex `\s+`; splitting on each whitespace character instead
produces the same tokens plus empty ones, and the source's subsequent
`.filter(word => word.length > 0)` removes exactly those, so the composite
`splitOnWs ∘ filter` below is the source's `split(/\s+/).filter(...)`. -/
def splitWsAux : List Char → List Char → List (List Char)
  | cur, [] => [cur.reverse]
  | cur, c :: cs =>
    if isSpaceChar c then cur.reverse :: splitWsAux [] cs
    else splitWsAux (c :: cur) cs

/-- Split a string at whitespace characters (empty tokens retained). -/
def splitOnWs (s : List Char) : List (List Char) := splitWsAux [] s

/-- `countWords` from `src/src/VideoGenerationPage.tsx` (lines 272–274):
`text.trim() ? text.trim().split(/\s+/).filter(word => word.length > 0).length : 0`.
The truthiness test on the trimmed string is the emptiness test. -/
def countWords (text : List Char) : Nat :=
  if (trim text).isEmpty then 0
  else ((splitOnWs (trim text)).filter (fun w => decide (0 < w.length))).length

/-- Run-based word counting: one count per maximal whitespace-separated run
of non-whitespace characters ("splitting the string on whitespace runs and
discarding empty tokens").  `inWord` records whether the previous character
was part of a run. -/
def countRunsAux : Bool → List Char → Nat
  | _, [] => 0
  | inWord, c :: cs =>
    if isSpaceChar c then countRunsAux false cs
    else (if inWord then 0 else 1) + countRunsAux true cs

/-- Number of maximal whitespace-separated runs in a string. -/
def countRuns (s : List Char) : Nat := countRunsAux false s

theorem splitWsAux_filter_length (s : List Char) :
    ∀ cur : List Char,
      ((splitWsAux cur s).filter (fun w => decide (0 < w.length))).length
        = (if cur.isEmpty then 0 else 1) + countRunsAux (!cur.isEmpty) s := by
  induction s with
  | nil =>
    intro cur
    cases cur <;> simp [splitWsAux, countRunsAux]
  | cons c cs ih =>
    intro cur
    by_cases hc : isSpaceChar c
    · cases cur with
      | nil => simp [splitWsAux, countRunsAux, hc, ih, List.filter]
      | cons a as =>
        simp [splitWsAux, countRunsAux, hc, ih, List.filter]
        omega
    · cases cur <;>
        simp [splitWsAux, countRunsAux, hc, ih]

theorem countRunsAux_trimStart (s : List Char) :
    countRunsAux false (trimStart s) = countRunsAux false s := by
  induction s with
  | nil => rfl
  | cons c cs ih =>
    by_cases hc : isSpaceChar c <;> simp [trimStart, countRunsAux, hc, ih]

theorem countRunsAux_trimEnd (s : List Char) :
    ∀ b : Bool, countRunsAux b (trimEnd s) = countRunsAux b s := by
  induction s with
  | nil => intro b; rfl
  | cons c cs ih =>
    intro b
    cases h : trimEnd cs with
    | nil =>
      have h0 : ∀ b', countRunsAux b' cs = 0 := by
        intro b'
        have := ih b'
        rw [h] at this
        simpa [countRunsAux] using this.symm
      by_cases hc : isSpaceChar c <;>
        simp [trimEnd, h, hc, countRunsAux, h0]
    | cons r rs =>
      have ht : trimEnd (c :: cs) = c :: trimEnd cs := by
        simp [trimEnd, h]
      rw [ht]
      by_cases hc : isSpaceChar c <;> simp [countRunsAux, hc, ih]

theorem countRuns_trim (s : List Char) : countRunsAux false (trim s) = countRuns s := by
  unfold trim countRuns
  rw [countRunsAux_trimEnd, countRunsAux_trimStart]

/-- `countWords` (trim, split, filter-out empty tokens, length — the source
computation) counts exactly the maximal whitespace-separated runs: the word
count is obtained "by splitting the string on whitespace runs and discarding
empty tokens". -/
theorem countWords_eq_countRuns (s : List Char) : countWords s = countRuns s := by
  unfold countWords splitOnWs
  by_cases h : (trim s).isEmpty
  · have htrim : trim s = [] := by
      cases ht : trim s with
      | nil => rfl
      | cons a as => rw [ht] at h; simp at h
    rw [← countRuns_trim s, htrim]
    simp [countRunsAux, h]
  · rw [splitWsAux_filter_length, ← countRuns_trim s]
    simp [h]

theorem countRunsAux_all_space (s : List Char) (h : ∀ c ∈ s, isSpaceChar c) :
    ∀ b : Bool, countRunsAux b s = 0 := by
  induction s with
  | nil => intro b; rfl
  | cons c cs ih =>
    intro b
    have hc : isSpaceChar c := h c (List.mem_cons_self c cs)
    have ih' := ih (fun x hx => h x (List.mem_cons_of_mem c hx))
    simp [countRunsAux, hc, ih']

/-- `estimateTextDuration` from `src/unnamed/part_001` (lines 436–440):
`words = text.trim().split(/\s+/).filter(word => word.length > 0)`,
`wordsPerSecond = 150 / 60`, result `words.length / wordsPerSecond`.
The token count is `countWords` (for an all-whitespace text the source's
split-of-empty-string also yields zero kept tokens). -/
def estimateTextDuration (text : List Char) : ℚ :=
  (countWords text : ℚ) / (150 / 60)

/-- The duration-estimate check from `src/unnamed/part_001` (lines 442–443):
`editedDuration = editText ? estimateTextDuration(editText) : segmentDuration`
(the empty string is falsy), `exceedsLimit = editedDuration > segmentDuration`. -/
def durationExceeds (segmentDuration : ℚ) (editText : List Char) : Bool :=
  let editedDuration := if editText.isEmpty then segmentDuration else estimateTextDuration editText
  decide (segmentDuration < editedDuration)

/-- The word-count check from the `exceedsLimit` effect in
`src/src/VideoGenerationPage.tsx` (lines 281–289):
`original = countWords(currentSegment.originalText)`,
`edited = countWords(editText)`,
`setExceedsLimit(Math.abs(edited - original) > 1)`. -/
def exceedsLimit (originalText editText : List Char) : Bool :=
  decide (1 < ((countWords editText : ℤ) - (countWords originalText : ℤ)).natAbs)

/-! ## Data model (`src/src/types/video.ts`) -/

/-- Segment lifecycle status. -/
inductive SegmentStatus
  | pending | processing | processed | error | synthesizing | synthesized
deriving DecidableEq

/-- Per-segment synthesis status values. -/
inductive SynthesisStatus
  | pending | inProgress | completed | failed
deriving DecidableEq

/-- `VideoSegment.ttsMetadata`. -/
structure TTSMetadata where
  audioUrl : Option (List Char) := none
  modelUsed : Option (List Char) := none
  voiceId : Option (List Char) := none
  speed : Option ℚ := none
  pitch : Option ℚ := none
  speakerEmbedding : Option (List ℚ) := none
  synthesisStatus : Option SynthesisStatus := none
  error : Option (List Char) := none
deriving DecidableEq

/-- Word-level transcription timing inside `VideoSegment.metadata`. -/
structure WordTiming where
  word : List Char
  startTime : ℚ
  endTime : ℚ
  confidence : ℚ
deriving DecidableEq

/-- `VideoSegment.metadata`. -/
structure SegmentMetadata where
  confidence : Option ℚ := none
  words : Option (List WordTiming) := none
deriving DecidableEq

/-- `VideoSegment.style`. -/
structure SegmentStyle where
  color : Option (List Char) := none
  gradient : Option (List Char) := none
deriving DecidableEq

/-- `VideoSegment`.  The source declares this type twice (`types/video.ts`
appears in two revisions); `speakerId` is required in one and optional in the
other, so it is modelled as `Option`, covering both. -/
structure VideoSegment where
  id : List Char
  videoId : List Char
  order : Nat
  startTime : ℚ
  endTime : ℚ
  originalText : List Char
  editedText : Option (List Char) := none
  speakerId : Option (List Char) := none
  status : Option SegmentStatus := none
  ttsMetadata : Option TTSMetadata := none
  metadata : Option SegmentMetadata := none
  style : Option SegmentStyle := none
deriving DecidableEq

/-- `CoquiVoiceSettings.gender`. -/
inductive VoiceGender
  | male | female | neutral
deriving DecidableEq

/-- `CoquiVoiceSettings`. -/
structure CoquiVoiceSettings where
  voiceId : Option (List Char) := none
  name : Option (List Char) := none
  language : Option (List Char) := none
  gender : Option VoiceGender := none
  speakerEmbedding : Option (List ℚ) := none
  modelName : Option (List Char) := none
  speed : Option ℚ := none
  pitch : Option ℚ := none
  energy : Option ℚ := none
deriving DecidableEq

/-- `Speaker`. -/
structure Speaker where
  id : List Char
  name : List Char
  role : Option (List Char) := none
  avatarUrl : Option (List Char) := none
  voiceSettings : Option CoquiVoiceSettings := none
  voiceProfileId : Option (List Char) := none
deriving DecidableEq

/-- `VideoTemplate.status`. -/
inductive TemplateStatus
  | draft | published | archived
deriving DecidableEq

/-- `VideoTemplate.resolution`. -/
structure Resolution where
  width : Nat
  height : Nat
deriving DecidableEq

/-- `VideoTemplate`.  The `aspectRatio` string union is kept as a string. -/
structure VideoTemplate where
  id : List Char
  title : List Char
  description : Option (List Char) := none
  thumbnailUrl : List Char
  duration : ℚ
  createdAt : Option (List Char) := none
  updatedAt : Option (List Char) := none
  status : Option TemplateStatus := none
  tags : Option (List (List Char)) := none
  aspectRatio : Option (List Char) := none
  resolution : Option Resolution := none
deriving DecidableEq

/-- `VideoProject.projectInfo`. -/
structure ProjectInfo where
  lastEdited : List Char
  version : List Char
  createdBy : List Char
  language : List Char
deriving DecidableEq

/-- `TTSConfiguration.provider` (`'coqui' | 'default' | 'custom'`). -/
inductive TTSProvider
  | coqui | defaultProvider | custom
deriving DecidableEq

/-- `TTSConfiguration`. -/
structure TTSConfiguration where
  provider : TTSProvider
  apiKey : Option (List Char) := none
  baseUrl : Option (List Char) := none
  defaultVoice : Option (List Char) := none
  language : Option (List Char) := none
  rate : Option ℚ := none
  pitch : Option ℚ := none
  volume : Option ℚ := none
  modelName : Option (List Char) := none
  voiceCloningEnabled : Option Bool := none
  maxCharacters : Option Nat := none
  concurrencyLimit : Option Nat := none
deriving DecidableEq

/-- `VideoProject` as constructed by `fetchVideoProject`
(the first declaration in the source, without a `videos` field). -/
structure VideoProject where
  video : VideoTemplate
  segments : List VideoSegment
  speakers : List Speaker
  projectInfo : Option ProjectInfo := none
  ttsConfig : Option TTSConfiguration := none
deriving DecidableEq

/-- Externally-computed transcript segment as it appears in API payloads:
`{start_time, end_time, text, is_silence}`. -/
structure RawSegment where
  start_time : ℚ
  end_time : ℚ
  text : List Char
  is_silence : Bool
deriving DecidableEq

/-- `VideoFile` (an entry of a payload's `videos` array). -/
structure VideoFile where
  title : List Char
  file_path : List Char
  duration : ℚ
  segments : List RawSegment
deriving DecidableEq

/-- The second `VideoProject` declaration in the source — the one with a
`videos : VideoFile[]` field, consumed by `VideoEditorInterface`. -/
structure EditorVideoProject where
  video : VideoTemplate
  videos : List VideoFile
  segments : List VideoSegment
  speakers : List Speaker
  projectInfo : Option ProjectInfo := none
deriving DecidableEq

/-! ## Project ingestion (`src/src/services/videoApi.ts`) -/

/-- `ApiVideoProject.metadata.segment_stats`. -/
structure SegmentStats where
  min_duration : ℚ
  max_duration : ℚ
  avg_duration : ℚ
  silent_segments : Nat
  spoken_segments : Nat
deriving DecidableEq

/-- `ApiVideoProject.metadata`. -/
structure ApiMetadata where
  video_duration : ℚ
  total_segments : Nat
  total_segments_duration : ℚ
  processing_timestamp : ℚ
  processing_notes : List Char
  segment_stats : SegmentStats
deriving DecidableEq

/-- `ApiVideoProject`: the template payload ingested by `fetchVideoProject`. -/
structure ApiVideoProject where
  title : List Char
  description : List Char
  is_public : Bool
  metadata : ApiMetadata
  videos : List VideoFile
deriving DecidableEq

/-- One transformed segment of `fetchVideoProject` (`videoApi.ts` lines 59–69):
the function mapped over `video.segments` at position `index`. -/
def transformSegment (templateId : List Char) (index : Nat) (s : RawSegment) : VideoSegment :=
  { id := "segment_".toList ++ (Nat.repr (index + 1)).toList
  , videoId := templateId
  , order := index + 1
  , startTime := s.start_time
  , endTime := s.end_time
  , originalText := s.text
  , editedText := some s.text
  , status := some SegmentStatus.processed
  , speakerId := some "speaker_1".toList }

/-- `video.segments.map((segment, index) => ...)` with an explicit start index. -/
def transformSegments (templateId : List Char) : Nat → List RawSegment → List VideoSegment
  | _, [] => []
  | index, s :: rest =>
    transformSegment templateId index s :: transformSegments templateId (index + 1) rest

/-- `defaultSpeaker` from `videoApi.ts` (lines 71–76). -/
def defaultSpeaker : Speaker :=
  { id := "speaker_1".toList
  , name := "Default Speaker".toList
  , role := some "Narrator".toList
  , avatarUrl := some "/default-avatar.png".toList }

/-- Pure core of `fetchVideoProject` (`videoApi.ts` lines 39–93): the
transformation applied to the fetched payload.  `data.videos[0]` on an empty
`videos` array is `undefined`, so the subsequent `video.segments` access
throws and the promise rejects — modelled as `none`.
`new Date().toISOString()` is the explicit `now` parameter. -/
def fetchVideoProject (templateId : List Char) (data : ApiVideoProject) (now : List Char) :
    Option VideoProject :=
  match data.videos.head? with
  | none => none
  | some video =>
    some
      { video :=
          { id := templateId
          , title := data.title
          , description := some data.description
          , thumbnailUrl := "/placeholder-thumbnail.jpg".toList
          , duration := data.metadata.video_duration
          , aspectRatio := some "16:9".toList }
      , segments := transformSegments templateId 0 video.segments
      , speakers := [defaultSpeaker]
      , projectInfo := some
          { lastEdited := now
          , version := "1.0.0".toList
          , createdBy := "System".toList
          , language := "en-US".toList } }

/-! ## Generation request payloads (`videoGenerationApi`) -/

/-- `TranscriptSegment` of the generation API. -/
structure TranscriptSegment where
  start_time : ℚ
  end_time : ℚ
  text : List Char
  is_silence : Option Bool := none
deriving DecidableEq

/-- `VideoTranscript` of the generation API. -/
structure VideoTranscript where
  title : List Char
  file_path : List Char
  duration : ℚ
  segments : List TranscriptSegment
  segment_count : Option Nat := none
deriving DecidableEq

/-- `TranscriptMetadata` of the generation API.  `segment_stats` is typed
`Record<string, any>` in the source and is modelled by its observed shape. -/
structure TranscriptMetadata where
  video_duration : ℚ
  total_segments : Nat
  total_segments_duration : ℚ
  processing_timestamp : Option (List Char) := none
  processing_notes : Option (List Char) := none
  segment_stats : Option SegmentStats := none
deriving DecidableEq

/-- `TranscriptData` of the generation API. -/
structure TranscriptData where
  title : List Char
  description : List Char
  is_public : Bool
  videos : List VideoTranscript
  metadata : Option TranscriptMetadata := none
deriving DecidableEq

/-- JS `segment.editedText || segment.originalText` as used by
`handleGenerateVoice`: `||` falls through both on `undefined` and on the
empty string (both are falsy). -/
def editedOrOriginal (s : VideoSegment) : List Char :=
  match s.editedText with
  | some t => if t.isEmpty then s.originalText else t
  | none => s.originalText

/-- The transcript payload built by `handleGenerateVoice`
(`src/src/VideoGenerationPage.tsx` lines 322–361) from the loaded project:
`videoUrl = project.videos[0]?.file_path || ''`,
`description = project.video.description || ''`, and one `videos` entry whose
`segments` maps every project segment to
`{start_time, end_time, text: editedText || originalText, is_silence: false}`. -/
def generateVoiceTranscript (project : EditorVideoProject) : TranscriptData :=
  let videoUrl : List Char :=
    match project.videos.head? with
    | some v => v.file_path
    | none => []
  { title := project.video.title
  , description := project.video.description.getD []
  , is_public := false
  , videos :=
      [ { title := project.video.title
        , file_path := videoUrl
        , duration := project.video.duration
        , segments := project.segments.map (fun s =>
            { start_time := s.startTime
            , end_time := s.endTime
            , text := editedOrOriginal s
            , is_silence := some false }) } ] }

/-! ## Video generation page state (`src/src/VideoGenerationPage.tsx`) -/

/-- `VideoGenerationState`. -/
structure VideoGenerationState where
  isLoading : Bool
  error : Option (List Char)
  generatedVideoUrl : Option (List Char)
deriving DecidableEq

/-- `VideoGenerationResponse.status`. -/
inductive ResponseStatus
  | success | error
deriving DecidableEq

/-- `VideoGenerationResponse`. -/
structure VideoGenerationResponse where
  job_id : List Char
  output_path : List Char
  message : List Char
  status : Option ResponseStatus := none
  error : Option (List Char) := none
deriving DecidableEq

/-- Whether `if (response.error)` takes the throw branch: truthy exactly for
a present, non-empty error string. -/
def responseErrorTruthy (r : VideoGenerationResponse) : Bool :=
  match r.error with
  | some e => !e.isEmpty
  | none => false

/-- Pure core of `startGeneration` (`src/src/VideoGenerationPage.tsx`
lines 63–96), given the executor's response: first
`setState({...prev, isLoading: true, error: null})`, then on a truthy
`response.error` the thrown `Error(response.error)` is caught and
`{...prev, error: err.message, isLoading: false}` is applied; otherwise
`{...prev, generatedVideoUrl: response.output_path, isLoading: false}`. -/
def startGeneration (s : VideoGenerationState) (response : VideoGenerationResponse) :
    VideoGenerationState :=
  let s1 : VideoGenerationState := { s with isLoading := true, error := none }
  match response.error with
  | some e =>
    if e.isEmpty then { s1 with generatedVideoUrl := some response.output_path, isLoading := false }
    else { s1 with error := some e, isLoading := false }
  | none => { s1 with generatedVideoUrl := some response.output_path, isLoading := false }

/-- `API_BASE_URL` from the source. -/
def API_BASE_URL : List Char := "http://localhost:8000/api/v1".toList

/-- `StartVideoGenerationParams`; optional parameters keep their
source-side defaults inside `startVideoGeneration`. -/
structure StartVideoGenerationParams where
  videoPath : List Char
  transcript : TranscriptData
  outputPath : Option (List Char) := none
  jobId : Option (List Char) := none
  testMode : Option Bool := none
deriving DecidableEq

/-- The JSON body `startVideoGeneration` POSTs. -/
structure GenerationRequestBody where
  video_path : List Char
  transcript : TranscriptData
  output_path : List Char
  job_id : List Char
deriving DecidableEq

/-- The HTTP request `startVideoGeneration` issues: URL path, query
parameters, body. -/
structure GenerationRequest where
  path : List Char
  query : List (List Char × List Char)
  body : GenerationRequestBody
deriving DecidableEq

/-- Pure request builder of `startVideoGeneration` (the generation service,
lines 248–290): defaults `outputPath = ''`, `jobId = job_${Date.now()}`
(`Date.now()` is the explicit `now` parameter), `testMode = false`;
appends `test_mode=true` to the query exactly when `testMode`, and POSTs
`{video_path, transcript, output_path, job_id}`. -/
def startVideoGeneration (p : StartVideoGenerationParams) (now : Nat) : GenerationRequest :=
  let outputPath := p.outputPath.getD []
  let jobId := p.jobId.getD ("job_".toList ++ (Nat.repr now).toList)
  let testMode := p.testMode.getD false
  { path := API_BASE_URL ++ "/lipsync/generate-lipsync-from-transcript".toList
  , query := if testMode then [("test_mode".toList, "true".toList)] else []
  , body :=
      { video_path := p.videoPath
      , transcript := p.transcript
      , output_path := outputPath
      , job_id := jobId } }

/-! ## Validation Engine (spec §4.2) and Project Store edits (spec §4.1)

The Validation Engine and Project Store are described by the spec but are
not implemented under `src/` (the source only has the UI-side `exceedsLimit`
warning); they are modelled from the spec, with the word count taken from the
source's `countWords`. -/

/-- Validation error kinds (spec §4.2/§7). -/
inductive EditError
  | wordCountExceeded | invalidTimeRange | timingOverlap | orderingGap
deriving DecidableEq

/-- The spec's default word-count tolerance (`toleranceWords=1`). -/
def defaultToleranceWords : Nat := 1

/-- Modelled from the spec: `validateTextEdit(original, edited, toleranceWords=1)`
of the Validation Engine (spec §4.2), which is not under `src/`: "fails with
`WordCountExceeded` when `abs(wordCount(edited) - wordCount(original)) >
toleranceWords`".  The word counts use `countWords` translated from the
source; at the default tolerance 1 the rejection condition is exactly the
source's `exceedsLimit` effect. -/
def validateTextEdit (original edited : List Char) (toleranceWords : Nat) :
    Except EditError Unit :=
  if toleranceWords < ((countWords edited : ℤ) - (countWords original : ℤ)).natAbs
  then Except.error EditError.wordCountExceeded
  else Except.ok ()

/-- Modelled from the spec: the text-field case of the Project Store's
`applyEdit` (spec §4.1), which is not under `src/`: validate against the
immutable `originalText`, then update `editedText`; on failure nothing is
mutated (no segment is produced, the stored one is untouched). -/
def applyTextEdit (toleranceWords : Nat) (seg : VideoSegment) (newText : List Char) :
    Except EditError VideoSegment :=
  match validateTextEdit seg.originalText newText toleranceWords with
  | Except.ok _ => Except.ok { seg with editedText := some newText }
  | Except.error e => Except.error e

/-! ## Synthesis Queue Manager (spec §4.4)

The Queue Manager exists only as type declarations under `src/`
(`synthesisQueue`, `currentSynthesisStatus` in `VideoEditorState`); its
operations are modelled from the spec.  Segment ids are `Nat`.  The
project-dependent `enqueue` guards (`SegmentNotFound`, `ValidationFailed`)
only remove transitions, so omitting them enlarges the set of reachable
states and strengthens the invariant proved below. -/

/-- Synthesis job status (spec §4.4 state machine); `NotQueued` is the
absence of a tracker entry. -/
inductive JobStatus
  | pending | inProgress | completed | failed
deriving DecidableEq

/-- Modelled from the spec: the Queue Manager's state (§4.4, §4.5): the FIFO
waiting list plus the Status Tracker, an association list from segment id to
latest status (at most one entry per segment). -/
structure QueueState where
  waiting : List Nat
  jobs : List (Nat × JobStatus)
deriving DecidableEq

/-- Status Tracker lookup (`statusOf`). -/
def lookupJob (sid : Nat) (jobs : List (Nat × JobStatus)) : Option JobStatus :=
  (jobs.find? (fun p => p.1 == sid)).map (fun p => p.2)

/-- Atomic replacement of a tracker entry (spec §4.5). -/
def setJob (sid : Nat) (st : JobStatus) : List (Nat × JobStatus) → List (Nat × JobStatus)
  | [] => []
  | p :: rest => (if p.1 == sid then (p.1, st) else p) :: setJob sid st rest

/-- The number of jobs currently `InProgress`. -/
def countInProgress (jobs : List (Nat × JobStatus)) : Nat :=
  (jobs.filter (fun p => p.2 == JobStatus.inProgress)).length

/-- Queue submission errors (spec §4.4). -/
inductive QueueError
  | alreadyInFlight
deriving DecidableEq

/-- Modelled from the spec: `enqueue(segmentId)` (§4.4): rejected with
`AlreadyInFlight` when already `Pending`/`InProgress`; otherwise appended to
the FIFO list and tracked as `Pending` (a `Failed`/`Completed` entry is
resubmitted by transitioning back to `Pending`). -/
def enqueue (sid : Nat) (q : QueueState) : Except QueueError QueueState :=
  match lookupJob sid q.jobs with
  | some JobStatus.pending => Except.error QueueError.alreadyInFlight
  | some JobStatus.inProgress => Except.error QueueError.alreadyInFlight
  | some _ =>
    Except.ok { waiting := q.waiting ++ [sid], jobs := setJob sid JobStatus.pending q.jobs }
  | none =>
    Except.ok { waiting := q.waiting ++ [sid], jobs := q.jobs ++ [(sid, JobStatus.pending)] }

/-- Modelled from the spec: one step of the dispatch loop (§4.4): when an
active worker slot is free (`countInProgress < limit`) pull the head of the
FIFO list and transition it to `InProgress`. -/
def dispatch (limit : Nat) (q : QueueState) : Option QueueState :=
  if countInProgress q.jobs < limit then
    match q.waiting with
    | [] => none
    | sid :: rest => some { waiting := rest, jobs := setJob sid JobStatus.inProgress q.jobs }
  else none

/-- Modelled from the spec: executor success for an `InProgress` job (§4.4). -/
def completeJob (sid : Nat) (q : QueueState) : Option QueueState :=
  if lookupJob sid q.jobs == some JobStatus.inProgress then
    some { waiting := q.waiting, jobs := setJob sid JobStatus.completed q.jobs }
  else none

/-- Modelled from the spec: executor failure (including `Timeout`) for an
`InProgress` job (§4.4). -/
def failJob (sid : Nat) (q : QueueState) : Option QueueState :=
  if lookupJob sid q.jobs == some JobStatus.inProgress then
    some { waiting := q.waiting, jobs := setJob sid JobStatus.failed q.jobs }
  else none

/-- Modelled from the spec: `cancel(segmentId)` (§4.4): removed from the
FIFO list and the status cleared back to `NotQueued` (entry removed). -/
def cancelJob (sid : Nat) (q : QueueState) : QueueState :=
  { waiting := q.waiting.filter (fun x => !(x == sid))
  , jobs := q.jobs.filter (fun p => !(p.1 == sid)) }

/-- Reachable queue states: the empty queue, closed under the Queue
Manager's transitions. -/
inductive QueueReach (limit : Nat) : QueueState → Prop
  | init : QueueReach limit { waiting := [], jobs := [] }
  | enq {q q' : QueueState} {sid : Nat} :
      QueueReach limit q → enqueue sid q = Except.ok q' → QueueReach limit q'
  | disp {q q' : QueueState} :
      QueueReach limit q → dispatch limit q = some q' → QueueReach limit q'
  | comp {q q' : QueueState} {sid : Nat} :
      QueueReach limit q → completeJob sid q = some q' → QueueReach limit q'
  | failed {q q' : QueueState} {sid : Nat} :
      QueueReach limit q → failJob sid q = some q' → QueueReach limit q'
  | cancel {q : QueueState} (sid : Nat) :
      QueueReach limit q → QueueReach limit (cancelJob sid q)

/-- `concurrencyLimit` with the spec's default: 1 (fully serialized) when
unset. -/
def effectiveConcurrencyLimit (cfg : TTSConfiguration) : Nat :=
  cfg.concurrencyLimit.getD 1

theorem setJob_keys (sid : Nat) (st : JobStatus) :
    ∀ jobs : List (Nat × JobStatus), (setJob sid st jobs).map Prod.fst = jobs.map Prod.fst := by
  intro jobs
  induction jobs with
  | nil => rfl
  | cons p rest ih =>
    by_cases h : p.1 == sid <;> simp [setJob, h, ih]

theorem setJob_not_mem (sid : Nat) (st : JobStatus) :
    ∀ jobs : List (Nat × JobStatus), sid ∉ jobs.map Prod.fst → setJob sid st jobs = jobs := by
  intro jobs
  induction jobs with
  | nil => intro h; rfl
  | cons p rest ih =>
    intro h
    simp only [List.map_cons, List.mem_cons] at h
    push_neg at h
    have h1 : (p.1 == sid) = false := beq_eq_false_iff_ne.mpr (fun he => h.1 he.symm)
    simp [setJob, h1, ih h.2]

theorem countInProgress_setJob_le (sid : Nat) (st : JobStatus)
    (hst : st ≠ JobStatus.inProgress) :
    ∀ jobs : List (Nat × JobStatus),
      countInProgress (setJob sid st jobs) ≤ countInProgress jobs := by
  intro jobs
  induction jobs with
  | nil => simp [setJob, countInProgress]
  | cons p rest ih =>
    simp only [setJob, countInProgress, List.filter_cons] at ih ⊢
    by_cases hk : p.1 == sid
    · simp only [hk, if_true]
      have hst' : ((p.1, st).2 == JobStatus.inProgress) = false := by
        simpa using hst
      simp only [hst', Bool.false_eq_true, if_false]
      by_cases hp : p.2 == JobStatus.inProgress <;> simp [hp] <;> omega
    · simp only [hk, Bool.false_eq_true, if_false]
      by_cases hp : p.2 == JobStatus.inProgress <;> simp [hp] <;> omega

theorem countInProgress_setJob_inProgress (sid : Nat) :
    ∀ jobs : List (Nat × JobStatus), (jobs.map Prod.fst).Nodup →
      countInProgress (setJob sid JobStatus.inProgress jobs) ≤ countInProgress jobs + 1 := by
  intro jobs
  induction jobs with
  | nil => intro _; simp [setJob, countInProgress]
  | cons p rest ih =>
    intro hnd
    simp only [List.map_cons, List.nodup_cons] at hnd
    by_cases hk : p.1 == sid
    · have hpe : p.1 = sid := by simpa using hk
      have hsid : sid ∉ rest.map Prod.fst := hpe ▸ hnd.1
      have hrest : setJob sid JobStatus.inProgress rest = rest := setJob_not_mem _ _ _ hsid
      simp only [setJob, countInProgress, List.filter_cons, hk, if_true, hrest] at ih ⊢
      by_cases hp : p.2 == JobStatus.inProgress <;> simp [hp]
    · simp only [setJob, countInProgress, List.filter_cons, hk, Bool.false_eq_true, if_false] at ih ⊢
      have hih := ih hnd.2
      by_cases hp : p.2 == JobStatus.inProgress <;> simp [hp] <;> omega

theorem lookupJob_none_not_mem (sid : Nat) (jobs : List (Nat × JobStatus))
    (h : lookupJob sid jobs = none) : sid ∉ jobs.map Prod.fst := by
  intro hmem
  obtain ⟨p, hp, hfst⟩ := List.mem_map.mp hmem
  have hfind : jobs.find? (fun p => p.1 == sid) = none := by
    cases hf : jobs.find? (fun p => p.1 == sid) with
    | none => rfl
    | some x => rw [lookupJob, hf] at h; simp at h
  have := List.find?_eq_none.mp hfind p hp
  simp [hfst] at this

theorem countInProgress_append_pending (sid : Nat) (jobs : List (Nat × JobStatus)) :
    countInProgress (jobs ++ [(sid, JobStatus.pending)]) = countInProgress jobs := by
  simp [countInProgress, List.filter_append]

/-- The inductive invariant for the queue: distinct tracker keys and the
concurrency bound. -/
def QueueInv (limit : Nat) (q : QueueState) : Prop :=
  (q.jobs.map Prod.fst).Nodup ∧ countInProgress q.jobs ≤ limit

theorem queueInv_of_reach {limit : Nat} {q : QueueState} (h : QueueReach limit q) :
    QueueInv limit q := by
  induction h with
  | init => exact ⟨List.nodup_nil, by simp [countInProgress]⟩
  | @enq q q' sid hr he ih =>
    unfold enqueue at he
    cases hl : lookupJob sid q.jobs with
    | none =>
      rw [hl] at he
      cases he
      refine ⟨?_, ?_⟩
      · simp only [List.map_append, List.map_cons, List.map_nil]
        rw [List.nodup_append]
        refine ⟨ih.1, List.nodup_singleton sid, ?_⟩
        intro a ha hb
        have hasid : a = sid := by simpa using hb
        exact lookupJob_none_not_mem sid q.jobs hl (hasid ▸ ha)
      · rw [countInProgress_append_pending]
        exact ih.2
    | some st =>
      rw [hl] at he
      cases st with
      | pending => cases he
      | inProgress => cases he
      | completed =>
        cases he
        exact ⟨by rw [setJob_keys]; exact ih.1,
          Nat.le_trans (countInProgress_setJob_le sid JobStatus.pending (by simp) q.jobs) ih.2⟩
      | failed =>
        cases he
        exact ⟨by rw [setJob_keys]; exact ih.1,
          Nat.le_trans (countInProgress_setJob_le sid JobStatus.pending (by simp) q.jobs) ih.2⟩
  | @disp q q' hr he ih =>
    unfold dispatch at he
    by_cases hlt : countInProgress q.jobs < limit
    · rw [if_pos hlt] at he
      cases hw : q.waiting with
      | nil => rw [hw] at he; cases he
      | cons sid rest =>
        rw [hw] at he
        cases he
        refine ⟨by rw [setJob_keys]; exact ih.1, ?_⟩
        show countInProgress (setJob sid JobStatus.inProgress q.jobs) ≤ limit
        have := countInProgress_setJob_inProgress sid q.jobs ih.1
        omega
    · rw [if_neg hlt] at he; cases he
  | @comp q q' sid hr he ih =>
    unfold completeJob at he
    by_cases hc : lookupJob sid q.jobs == some JobStatus.inProgress
    · rw [if_pos hc] at he
      cases he
      exact ⟨by rw [setJob_keys]; exact ih.1,
        Nat.le_trans (countInProgress_setJob_le sid JobStatus.completed (by simp) q.jobs) ih.2⟩
    · rw [if_neg hc] at he; cases he
  | @failed q q' sid hr he ih =>
    unfold failJob at he
    by_cases hc : lookupJob sid q.jobs == some JobStatus.inProgress
    · rw [if_pos hc] at he
      cases he
      exact ⟨by rw [setJob_keys]; exact ih.1,
        Nat.le_trans (countInProgress_setJob_le sid JobStatus.failed (by simp) q.jobs) ih.2⟩
    · rw [if_neg hc] at he; cases he
  | @cancel q sid hr ih =>
    refine ⟨?_, ?_⟩
    · have hsub : List.Sublist ((cancelJob sid q).jobs.map Prod.fst) (q.jobs.map Prod.fst) :=
        List.Sublist.map Prod.fst (List.filter_sublist q.jobs)
      exact List.Nodup.sublist hsub ih.1
    · have hsub : List.Sublist
          ((cancelJob sid q).jobs.filter (fun p => p.2 == JobStatus.inProgress))
          (q.jobs.filter (fun p => p.2 == JobStatus.inProgress)) :=
        List.Sublist.filter _ (List.filter_sublist q.jobs)
      exact Nat.le_trans (List.Sublist.length_le hsub) ih.2

/-! ## Segment ordering predicates and ingestion lemmas -/

/-- Adjacent time-ordering of project segments: each segment ends no later
than the next begins. -/
def timesOrdered : List VideoSegment → Bool
  | [] => true
  | [_] => true
  | a :: b :: rest => decide (a.endTime ≤ b.startTime) && timesOrdered (b :: rest)

/-- Strictly increasing `order` fields: the segment list is its own
order-sorted enumeration. -/
def ordersStrictMono : List VideoSegment → Bool
  | [] => true
  | [_] => true
  | a :: b :: rest => decide (a.order < b.order) && ordersStrictMono (b :: rest)

/-- Adjacent time-ordering of a payload's raw segments. -/
def rawTimesOrdered : List RawSegment → Bool
  | [] => true
  | [_] => true
  | a :: b :: rest => decide (a.end_time ≤ b.start_time) && rawTimesOrdered (b :: rest)

theorem transformSegments_length (tid : List Char) :
    ∀ (l : List RawSegment) (i : Nat), (transformSegments tid i l).length = l.length := by
  intro l
  induction l with
  | nil => intro i; rfl
  | cons a rest ih => intro i; simp [transformSegments, ih]

theorem transformSegments_orders (tid : List Char) :
    ∀ (l : List RawSegment) (i : Nat),
      (transformSegments tid i l).map (fun s => s.order) = List.range' (i + 1) l.length := by
  intro l
  induction l with
  | nil => intro i; rfl
  | cons a rest ih =>
    intro i
    simp [transformSegments, List.range'_succ, transformSegment, ih]

theorem transformSegments_speakerId (tid : List Char) :
    ∀ (l : List RawSegment) (i : Nat) (s : VideoSegment),
      s ∈ transformSegments tid i l → s.speakerId = some "speaker_1".toList := by
  intro l
  induction l with
  | nil => intro i s hs; cases hs
  | cons a rest ih =>
    intro i s hs
    cases hs with
    | head => rfl
    | tail _ h => exact ih (i + 1) s h

theorem transformSegments_timesOrdered (tid : List Char) :
    ∀ (l : List RawSegment) (i : Nat), rawTimesOrdered l = true →
      timesOrdered (transformSegments tid i l) = true := by
  intro l
  induction l with
  | nil => intro i _; rfl
  | cons a rest ih =>
    intro i h
    cases rest with
    | nil => rfl
    | cons b rest2 =>
      simp only [rawTimesOrdered, Bool.and_eq_true, decide_eq_true_eq] at h
      have ht := ih (i + 1) h.2
      simp only [transformSegments, timesOrdered, Bool.and_eq_true, decide_eq_true_eq]
      exact ⟨h.1, ht⟩

theorem transformSegments_ordersStrictMono (tid : List Char) :
    ∀ (l : List RawSegment) (i : Nat),
      ordersStrictMono (transformSegments tid i l) = true := by
  intro l
  induction l with
  | nil => intro i; rfl
  | cons a rest ih =>
    intro i
    cases rest with
    | nil => rfl
    | cons b rest2 =>
      have ht := ih (i + 1)
      simp only [transformSegments, ordersStrictMono, Bool.and_eq_true, decide_eq_true_eq]
      exact ⟨by simp [transformSegment], ht⟩

/-! ## Concrete scenario data -/

/-- Ten-word text for the spec scenario. -/
def tenWordText : List Char :=
  "one two three four five six seven eight nine ten".toList

/-- Eleven-word edit of `tenWordText`. -/
def elevenWordText : List Char :=
  "one two three four five six seven eight nine ten eleven".toList

/-- Thirteen-word edit of `tenWordText`. -/
def thirteenWordText : List Char :=
  "one two three four five six seven eight nine ten eleven twelve thirteen".toList

/-- The spec scenario's first segment `[0,5)` with a 10-word original text. -/
def scenarioSegment : VideoSegment :=
  { id := "segment_1".toList
  , videoId := "video_1".toList
  , order := 1
  , startTime := 0
  , endTime := 5
  , originalText := tenWordText
  , editedText := some tenWordText
  , speakerId := some "speaker_1".toList
  , status := some SegmentStatus.processed }

/-- A syntactically valid but time-overlapping ingestion payload:
raw segments `[0,5)` then `[3,8)`. -/
def overlapPayload : ApiVideoProject :=
  { title := "Overlap".toList
  , description := "payload with overlapping segments".toList
  , is_public := false
  , metadata :=
      { video_duration := 10
      , total_segments := 2
      , total_segments_duration := 10
      , processing_timestamp := 0
      , processing_notes := []
      , segment_stats :=
          { min_duration := 5, max_duration := 5, avg_duration := 5
          , silent_segments := 0, spoken_segments := 2 } }
  , videos :=
      [ { title := "v".toList
        , file_path := "/v.mp4".toList
        , duration := 10
        , segments :=
            [ { start_time := 0, end_time := 5, text := "first part".toList, is_silence := false }
            , { start_time := 3, end_time := 8, text := "second part".toList, is_silence := false } ] } ] }

/-- Placeholder project for `Option.getD` on ingestion results. -/
def fallbackProject : VideoProject :=
  { video := { id := [], title := [], thumbnailUrl := [], duration := 0 }
  , segments := []
  , speakers := [] }

/-- The project the overlapping payload ingests to. -/
def overlapProject : VideoProject :=
  (fetchVideoProject "tmpl".toList overlapPayload "now".toList).getD fallbackProject

/-- The well-ordered first video of `orderedPayload`: raw segments
`[0,5)` then `[5,10)`. -/
def orderedVideoFile : VideoFile :=
  { title := "v".toList
  , file_path := "/v.mp4".toList
  , duration := 10
  , segments :=
      [ { start_time := 0, end_time := 5, text := "first part".toList, is_silence := false }
      , { start_time := 5, end_time := 10, text := "second part".toList, is_silence := false } ] }

/-- A well-ordered ingestion payload with two segments `[0,5)`, `[5,10)`. -/
def orderedPayload : ApiVideoProject :=
  { title := "Ordered".toList
  , description := "well-formed payload".toList
  , is_public := false
  , metadata :=
      { video_duration := 10
      , total_segments := 2
      , total_segments_duration := 10
      , processing_timestamp := 0
      , processing_notes := []
      , segment_stats :=
          { min_duration := 5, max_duration := 5, avg_duration := 5
          , silent_segments := 0, spoken_segments := 2 } }
  , videos := [orderedVideoFile] }

/-- The project the well-ordered payload ingests to. -/
def orderedProject : VideoProject :=
  (fetchVideoProject "tmpl".toList orderedPayload "now".toList).getD fallbackProject

/-- `orderedPayload` with a second (junk) video and different metadata
extras — agreeing with `orderedPayload` on title, description,
`metadata.video_duration`, and the first video. -/
def extraVideosPayload : ApiVideoProject :=
  { orderedPayload with
      metadata := { orderedPayload.metadata with
        processing_notes := "different notes".toList, processing_timestamp := 99 }
    , videos := orderedPayload.videos ++
        [ { title := "junk".toList
          , file_path := "/junk.mp4".toList
          , duration := 3
          , segments :=
              [ { start_time := 0, end_time := 3, text := "junk text".toList, is_silence := true } ] } ] }

/-- A segment whose `editedText` is present but empty. -/
def emptyEditSegment : VideoSegment :=
  { id := "segment_1".toList
  , videoId := "v".toList
  , order := 1
  , startTime := 0
  , endTime := 5
  , originalText := "hi".toList
  , editedText := some []
  , speakerId := some "speaker_1".toList }

/-- Editor project containing `emptyEditSegment`. -/
def emptyEditProject : EditorVideoProject :=
  { video := { id := "v".toList, title := "T".toList, thumbnailUrl := [], duration := 10 }
  , videos := []
  , segments := [emptyEditSegment]
  , speakers := [defaultSpeaker] }

/-- Generation page state with no prior result. -/
def freshGenState : VideoGenerationState :=
  { isLoading := false, error := none, generatedVideoUrl := none }

/-- Generation page state holding a previously generated video URL. -/
def staleUrlState : VideoGenerationState :=
  { isLoading := false, error := none, generatedVideoUrl := some "videos/old/output.mp4".toList }

/-- Executor response carrying an error string. -/
def failedGenResponse : VideoGenerationResponse :=
  { job_id := "job_1".toList
  , output_path := "videos/v1/output.mp4".toList
  , message := []
  , status := some ResponseStatus.error
  , error := some "executor failed".toList }

/-- A TTS configuration with `concurrencyLimit` unset. -/
def exampleTTSConfig : TTSConfiguration :=
  { provider := TTSProvider.coqui }

/-- Queue after `enqueue 7` from the empty queue. -/
def pendingQueue : QueueState :=
  { waiting := [7], jobs := [(7, JobStatus.pending)] }

/-- Queue after dispatching job 7. -/
def busyQueue : QueueState :=
  { waiting := [], jobs := [(7, JobStatus.inProgress)] }


/-! ## Claim theorems -/

/-- **C1**: the text-edit validation computes each word count by splitting
the string on whitespace runs and discarding empty tokens (`countWords`
equals the maximal-run count), and rejects with `WordCountExceeded` exactly
when the absolute word-count difference exceeds the tolerance — at the
default tolerance 1 this rejection condition is precisely the source's
`exceedsLimit` effect.  On the spec scenario, a 10-word original edited to
11 words is accepted (only `editedText` changes, `originalText` is kept) and
edited to 13 words is rejected with `WordCountExceeded`, producing no
mutated segment. -/
theorem textEditValidation_correct :
    (∀ s : List Char, countWords s = countRuns s) ∧
    (∀ (original edited : List Char) (toleranceWords : Nat),
        validateTextEdit original edited toleranceWords = Except.error EditError.wordCountExceeded
          ↔ toleranceWords <
              ((countWords edited : ℤ) - (countWords original : ℤ)).natAbs) ∧
    (∀ original edited : List Char,
        exceedsLimit original edited = true
          ↔ validateTextEdit original edited defaultToleranceWords
              = Except.error EditError.wordCountExceeded) ∧
    (countWords tenWordText = 10 ∧ countWords elevenWordText = 11 ∧
      countWords thirteenWordText = 13) ∧
    applyTextEdit defaultToleranceWords scenarioSegment elevenWordText
      = Except.ok { scenarioSegment with editedText := some elevenWordText } ∧
    applyTextEdit defaultToleranceWords scenarioSegment thirteenWordText
      = Except.error EditError.wordCountExceeded := by
  refine ⟨countWords_eq_countRuns, ?_, ?_, ⟨by decide, by decide, by decide⟩, ?_, ?_⟩
  · intro o e t
    unfold validateTextEdit
    split <;> simp_all
  · intro o e
    unfold exceedsLimit validateTextEdit defaultToleranceWords
    split <;> simp_all
  · rfl
  · rfl

/-- **C10**: every all-whitespace string (the empty string included) has
word count 0; consequently replacing the text of a segment whose original
text has at most one word by such a string — in particular clearing it —
passes the source's word-count check at the default tolerance 1. -/
theorem countWords_whitespace_zero (s original : List Char)
    (hs : ∀ c ∈ s, isSpaceChar c) (horig : countWords original ≤ 1) :
    countWords s = 0 ∧ exceedsLimit original s = false := by
  have h0 : countWords s = 0 := by
    rw [countWords_eq_countRuns]
    exact countRunsAux_all_space s hs false
  refine ⟨h0, ?_⟩
  rw [exceedsLimit, h0]
  simp only [decide_eq_false_iff_not, not_lt]
  omega

/-- Witness for **C10** at the cleared text and a one-word original. -/
theorem countWords_whitespace_zero_witness :
    countWords ([] : List Char) = 0 ∧ exceedsLimit "hello".toList ([] : List Char) = false :=
  countWords_whitespace_zero ([] : List Char) "hello".toList (by decide) (by decide)

/-- **C6**: the word-count acceptance check and the duration-estimate
acceptance check are not equivalent: for a 1-second segment with the same
10-word text as original and edit, the word-count check accepts
(difference 0 ≤ 1) while the duration-estimate check rejects
(10 words / 2.5 words-per-second = 4 s > 1 s). -/
theorem wordCount_duration_checks_differ :
    ∃ (segmentDuration : ℚ) (original edited : List Char),
      exceedsLimit original edited = false ∧ durationExceeds segmentDuration edited = true := by
  refine ⟨1, tenWordText, tenWordText, by decide, ?_⟩
  have hcw : countWords tenWordText = 10 := by decide
  have he : tenWordText.isEmpty = false := by decide
  simp only [durationExceeds, estimateTextDuration, he, Bool.false_eq_true, if_false, hcw,
    decide_eq_true_eq]
  norm_num

/-- **C2** counterexample: ingestion performs no timing validation.  The
payload with raw segments `[0,5)` then `[3,8)` is accepted by
`fetchVideoProject` (the claim's only segment source), and the resulting
project — whose `order` fields are already sorted — violates
`segments[i].endTime ≤ segments[i+1].startTime`. -/
theorem ingestion_overlap_counterexample :
    fetchVideoProject "tmpl".toList overlapPayload "now".toList = some overlapProject ∧
    ordersStrictMono overlapProject.segments = true ∧
    timesOrdered overlapProject.segments = false :=
  ⟨rfl, by decide, by decide⟩

/-- **C2** (amended): for every ingestion payload whose (first video's) raw
segments are themselves non-overlapping and non-decreasing, the ingested
project's segments — listed in strictly increasing `order`, so the list is
its own order-sorted enumeration — satisfy
`segments[i].endTime ≤ segments[i+1].startTime`; ingestion copies the
payload times verbatim, and no code path under `src/` subsequently edits
segment timings. -/
theorem ingestion_time_ordering (templateId now : List Char) (data : ApiVideoProject)
    (v : VideoFile) (proj : VideoProject)
    (hv : data.videos.head? = some v)
    (hord : rawTimesOrdered v.segments = true)
    (h : fetchVideoProject templateId data now = some proj) :
    timesOrdered proj.segments = true ∧ ordersStrictMono proj.segments = true := by
  unfold fetchVideoProject at h
  rw [hv] at h
  cases h
  exact ⟨transformSegments_timesOrdered templateId v.segments 0 hord,
    transformSegments_ordersStrictMono templateId v.segments 0⟩

/-- Witness for the amended **C2** at the well-ordered two-segment payload. -/
theorem ingestion_time_ordering_witness :
    timesOrdered orderedProject.segments = true ∧
    ordersStrictMono orderedProject.segments = true :=
  ingestion_time_ordering "tmpl".toList "now".toList orderedPayload orderedVideoFile
    orderedProject rfl (by decide) rfl

/-- **C3**: for every payload accepted by ingestion, the returned segments
carry `order` values `1, 2, …, n` (strictly increasing, contiguous, no
gaps), and every segment's `speakerId` references the id of a speaker in
the returned speakers list. -/
theorem ingestion_orders_and_speakers (templateId now : List Char) (data : ApiVideoProject)
    (proj : VideoProject) (h : fetchVideoProject templateId data now = some proj) :
    proj.segments.map (fun s => s.order) = List.range' 1 proj.segments.length ∧
    ∀ s ∈ proj.segments, ∃ sp ∈ proj.speakers, s.speakerId = some sp.id := by
  unfold fetchVideoProject at h
  cases hv : data.videos.head? with
  | none => rw [hv] at h; cases h
  | some v =>
    rw [hv] at h
    cases h
    constructor
    · show (transformSegments templateId 0 v.segments).map (fun s => s.order)
        = List.range' 1 (transformSegments templateId 0 v.segments).length
      rw [transformSegments_orders, transformSegments_length]
    · intro s hs
      exact ⟨defaultSpeaker, List.mem_singleton.mpr rfl,
        transformSegments_speakerId templateId v.segments 0 s hs⟩

/-- Witness for **C3** at the well-ordered two-segment payload. -/
theorem ingestion_orders_and_speakers_witness :
    orderedProject.segments.map (fun s => s.order)
      = List.range' 1 orderedProject.segments.length ∧
    ∀ s ∈ orderedProject.segments, ∃ sp ∈ orderedProject.speakers, s.speakerId = some sp.id :=
  ingestion_orders_and_speakers "tmpl".toList "now".toList orderedPayload orderedProject rfl

/-- **C9**: ingestion depends only on the payload's title, description,
`metadata.video_duration`, and first video: two payloads agreeing on those
(and any template id) produce identical `video`, `segments`, and `speakers`
fields; every video after the first is ignored and contributes no
segments. -/
theorem ingestion_ignores_extra_videos (templateId now1 now2 : List Char)
    (d1 d2 : ApiVideoProject)
    (ht : d1.title = d2.title) (hd : d1.description = d2.description)
    (hm : d1.metadata.video_duration = d2.metadata.video_duration)
    (hv : d1.videos.head? = d2.videos.head?) :
    (fetchVideoProject templateId d1 now1).map (fun p => (p.video, p.segments, p.speakers))
      = (fetchVideoProject templateId d2 now2).map (fun p => (p.video, p.segments, p.speakers)) := by
  unfold fetchVideoProject
  rw [ht, hd, hm, hv]
  cases d2.videos.head? <;> rfl

/-- Witness for **C9**: the payload with an appended junk video and altered
metadata extras ingests to the same `video`/`segments`/`speakers` as the
plain payload, even at a different ingestion time. -/
theorem ingestion_ignores_extra_videos_witness :
    (fetchVideoProject "tmpl".toList extraVideosPayload "now1".toList).map
        (fun p => (p.video, p.segments, p.speakers))
      = (fetchVideoProject "tmpl".toList orderedPayload "now2".toList).map
          (fun p => (p.video, p.segments, p.speakers)) :=
  ingestion_ignores_extra_videos "tmpl".toList "now1".toList "now2".toList
    extraVideosPayload orderedPayload rfl rfl rfl rfl

/-- **C5** counterexample: the claim's "text equals the segment's
`editedText` when present" fails when the edited text is present but empty:
JS `editedText || originalText` treats `''` as falsy, so the dispatched
entry's text is the original text `"hi"`, not the present edited text
`''`. -/
theorem generateVoice_payload_counterexample :
    emptyEditProject.segments.map (fun s => s.editedText) = [some []] ∧
    (generateVoiceTranscript emptyEditProject).videos.map
        (fun v => v.segments.map (fun e => e.text))
      = [["hi".toList]] ∧
    ¬ ((generateVoiceTranscript emptyEditProject).videos.map
        (fun v => v.segments.map (fun e => e.text))
      = [[([] : List Char)]]) :=
  ⟨rfl, rfl, by decide⟩

/-- **C5** (amended): the dispatched payload maps each project segment, in
order, to an entry whose `start_time` is the segment's `startTime`, whose
`end_time` is its `endTime`, and whose text is its `editedText` when present
and non-empty, and otherwise its `originalText`. -/
theorem generateVoice_payload (project : EditorVideoProject) :
    (generateVoiceTranscript project).videos.map (fun v => v.segments)
      = [project.segments.map (fun s =>
          { start_time := s.startTime
          , end_time := s.endTime
          , text := match s.editedText with
                    | some t => if t.isEmpty then s.originalText else t
                    | none => s.originalText
          , is_silence := some false : TranscriptSegment })] := rfl

/-- **C7** counterexample: the error path only patches `error` and
`isLoading`, never clearing a previously generated URL, so after a failing
retry from a state holding an earlier result both the error and the
generated URL are set — contradicting "no generated video URL" and "exactly
one of the error or the generated URL is set". -/
theorem startGeneration_counterexample :
    (startGeneration staleUrlState failedGenResponse).error = some "executor failed".toList ∧
    (startGeneration staleUrlState failedGenResponse).generatedVideoUrl
      = some "videos/old/output.mp4".toList ∧
    ¬ ((startGeneration staleUrlState failedGenResponse).generatedVideoUrl = none) :=
  ⟨rfl, rfl, by decide⟩

/-- **C7** (amended): starting from a state with no generated video URL
(such as the initial state), a response with a non-empty error string leaves
exactly that string recorded as the error with no generated URL; a response
without a truthy error records `output_path` as the generated URL with no
error; in both cases `isLoading` ends `false` and exactly one of the error
or the generated URL is set.  (A single invocation produces this final
state; no retry occurs within it.) -/
theorem startGeneration_outcome (s : VideoGenerationState) (r : VideoGenerationResponse)
    (hfresh : s.generatedVideoUrl = none) :
    (startGeneration s r).isLoading = false ∧
    (∀ msg : List Char, r.error = some msg → msg ≠ [] →
        (startGeneration s r).error = some msg ∧
          (startGeneration s r).generatedVideoUrl = none) ∧
    (responseErrorTruthy r = false →
        (startGeneration s r).generatedVideoUrl = some r.output_path ∧
          (startGeneration s r).error = none) ∧
    ((startGeneration s r).error = none ↔ ¬ ((startGeneration s r).generatedVideoUrl = none)) := by
  cases hr : r.error with
  | none =>
    refine ⟨?_, ?_, ?_, ?_⟩ <;>
      simp [startGeneration, responseErrorTruthy, hr, hfresh]
  | some e =>
    by_cases he : e.isEmpty
    · have he' : e = [] := by
        cases e with
        | nil => rfl
        | cons a as => simp [List.isEmpty] at he
      refine ⟨?_, ?_, ?_, ?_⟩
      · simp [startGeneration, hr, he]
      · intro msg hmsg hne
        cases hmsg
        exact absurd he' hne
      · intro _
        simp [startGeneration, hr, he]
      · simp [startGeneration, hr, he]
    · refine ⟨?_, ?_, ?_, ?_⟩
      · simp [startGeneration, hr, he]
      · intro msg hmsg hne
        cases hmsg
        simp [startGeneration, hr, he, hfresh]
      · intro htruthy
        simp [responseErrorTruthy, hr] at htruthy
        exact absurd (by simp [htruthy] : e.isEmpty = true) he
      · simp [startGeneration, hr, he, hfresh]

/-- Witness for the amended **C7**: the failing response applied to the
fresh state. -/
theorem startGeneration_outcome_witness :
    (startGeneration freshGenState failedGenResponse).isLoading = false ∧
    (∀ msg : List Char, failedGenResponse.error = some msg → msg ≠ [] →
        (startGeneration freshGenState failedGenResponse).error = some msg ∧
          (startGeneration freshGenState failedGenResponse).generatedVideoUrl = none) ∧
    (responseErrorTruthy failedGenResponse = false →
        (startGeneration freshGenState failedGenResponse).generatedVideoUrl
            = some failedGenResponse.output_path ∧
          (startGeneration freshGenState failedGenResponse).error = none) ∧
    ((startGeneration freshGenState failedGenResponse).error = none
      ↔ ¬ ((startGeneration freshGenState failedGenResponse).generatedVideoUrl = none)) :=
  startGeneration_outcome freshGenState failedGenResponse rfl

/-- **C8**: `startVideoGeneration` puts `test_mode=true` in the query
exactly when the test-mode flag is `true` (the query is otherwise empty),
and the request body `{video_path, transcript, output_path, job_id}` is
identical whatever the flag is set to. -/
theorem startVideoGeneration_testMode_query (p : StartVideoGenerationParams) (now : Nat) :
    (("test_mode".toList, "true".toList) ∈ (startVideoGeneration p now).query
        ↔ p.testMode.getD false = true) ∧
    ((startVideoGeneration p now).query = []
        ∨ (startVideoGeneration p now).query = [("test_mode".toList, "true".toList)]) ∧
    (∀ b1 b2 : Option Bool,
        (startVideoGeneration { p with testMode := b1 } now).body
          = (startVideoGeneration { p with testMode := b2 } now).body) := by
  refine ⟨?_, ?_, ?_⟩
  · cases hb : p.testMode.getD false <;> simp [startVideoGeneration, hb]
  · cases hb : p.testMode.getD false <;> simp [startVideoGeneration, hb]
  · intro b1 b2
    rfl

/-- **C4**: in every reachable state of the (spec-modelled) synthesis
queue, the number of segments `InProgress` is at most the configuration's
concurrency limit, and the effective limit defaults to 1 (fully serialized)
when `concurrencyLimit` is unset. -/
theorem synthesis_concurrency_bounded :
    (∀ (cfg : TTSConfiguration) (q : QueueState),
        QueueReach (effectiveConcurrencyLimit cfg) q →
          countInProgress q.jobs ≤ effectiveConcurrencyLimit cfg) ∧
    (∀ cfg : TTSConfiguration, cfg.concurrencyLimit = none →
        effectiveConcurrencyLimit cfg = 1) := by
  constructor
  · intro cfg q h
    exact (queueInv_of_reach h).2
  · intro cfg h
    unfold effectiveConcurrencyLimit
    rw [h]
    rfl

/-- Witness for **C4**: with an unset `concurrencyLimit`, the state reached
by enqueueing then dispatching job 7 respects the bound, and the effective
limit is 1. -/
theorem synthesis_concurrency_bounded_witness :
    countInProgress busyQueue.jobs ≤ effectiveConcurrencyLimit exampleTTSConfig ∧
    effectiveConcurrencyLimit exampleTTSConfig = 1 :=
  ⟨synthesis_concurrency_bounded.1 exampleTTSConfig busyQueue
      (QueueReach.disp
        (QueueReach.enq QueueReach.init
          (show enqueue 7 { waiting := [], jobs := [] } = Except.ok pendingQueue from rfl))
        (show dispatch (effectiveConcurrencyLimit exampleTTSConfig) pendingQueue = some busyQueue
          from rfl)),
    synthesis_concurrency_bounded.2 exampleTTSConfig rfl⟩

end Lipsync
